import Mathlib

/-
Shallow embedding of `src/backend/index.js`: a minimal user-management HTTP
API (Express + Mongoose + Multer).  The document collection is modelled as an
association list from identifiers to user documents; file storage as the list
of filenames present in the fixed upload directory; each route handler as a
pure function from server state and request data to a new state and a
response.  Paths are modelled as normalized segment lists.
-/

namespace MongoApp

/-- The Mongoose `userSchema`: `username`, `email`, `password` required
strings, `image` an optional string (the relative URL of the uploaded file,
or null/absent). -/
structure UserDoc where
  username : String
  email : String
  password : String
  image : Option String
deriving Repr, DecidableEq

/-- Document identifiers (`_id`); modelled as naturals.  Every value of this
type stands for a *well-formed* identifier: malformed id strings (which make
Mongoose throw a `CastError`, caught as a 500) are outside this embedding. -/
abbrev UserId := Nat

/-- The text fields of a form-encoded request body (`req.body`); a absent
field reads as `undefined` in JS, modelled as `none`. -/
structure RequestBody where
  username : Option String
  email : Option String
  password : Option String
deriving Repr, DecidableEq

/-- An incoming file part (`req.file` before storage): Multer exposes the
client-declared `mimetype` and `originalname`. -/
structure UploadedFile where
  originalname : String
  mimetype : String
deriving Repr, DecidableEq

/-- Server state: the `users` collection (association list keyed by `_id`),
the set of filenames in the `uploads` directory, and whether that directory
exists. -/
structure ServerState where
  users : List (UserId × UserDoc)
  files : List String
  uploadDirExists : Bool
deriving Repr, DecidableEq

/-- `sanitizeFilename` (index.js line 39): replace every character matching
the regex class `[<>:"/\\|?*]` with an underscore.  This predicate is that
character class. -/
def isInvalidChar (c : Char) : Bool :=
  c = '<' || c = '>' || c = ':' || c = '\"' || c = '/' || c = '\\' ||
  c = '|' || c = '?' || c = '*'

/-- `sanitizeFilename(filename)`: `filename.replace(/[<>:"/\\|?*]/g, '_')`.
A character-class regex replace is a character-wise map. -/
def sanitizeFilename (filename : String) : String :=
  ⟨filename.data.map (fun c => if isInvalidChar c then '_' else c)⟩

/-- `pre` is a prefix of `s` (character lists); the meaning of JS
`String.prototype.startsWith`. -/
def strStartsWith : List Char → List Char → Bool
  | [], _ => true
  | _ :: _, [] => false
  | a :: pre, b :: s => a = b && strStartsWith pre s

/-- Multer `fileFilter` (index.js line 56): accept iff the declared MIME
type starts with `image/` (`file.mimetype.startsWith('image/')`). -/
def fileFilterAccepts (f : UploadedFile) : Bool :=
  strStartsWith "image/".data f.mimetype.data

/-- `storage.destination` (index.js line 45): every file goes to the single
fixed `uploads` directory. -/
def storageDestination (_f : UploadedFile) : String :=
  "uploads"

/-- `storage.filename` (index.js line 48): `Date.now() + '-' + sanitized
original name`; `now` is the millisecond timestamp at storage time. -/
def storageFilename (now : Nat) (f : UploadedFile) : String :=
  toString now ++ "-" ++ sanitizeFilename f.originalname

/-- Startup check (index.js lines 16-18): create the uploads directory if it
does not exist. -/
def ensureUploadDir (st : ServerState) : ServerState :=
  if st.uploadDirExists then st else { st with uploadDirExists := true }

/-- The `upload.single('image')` middleware: with no file part it passes
through; with a file part it either rejects it via `fileFilter` (error
`'Only image files are allowed'`, nothing written) or writes it to the
uploads directory under the generated name and reports that name. -/
def runMulter (st : ServerState) (now : Nat) (file : Option UploadedFile) :
    ServerState × Except String (Option String) :=
  match file with
  | none => (st, .ok none)
  | some f =>
    if fileFilterAccepts f then
      let name := storageFilename now f
      ({ st with files := st.files ++ [name] }, .ok (some name))
    else
      (st, .error "Only image files are allowed")

/-- `User.findById`: the document whose `_id` equals `id`, if any. -/
def findById : List (UserId × UserDoc) → UserId → Option UserDoc
  | [], _ => none
  | (k, u) :: rest, id => if k = id then some u else findById rest id

/-- The write part of `User.findByIdAndUpdate`: replace the document keyed
`id` (Mongo `_id`s are unique, so at most one entry matches). -/
def setById : List (UserId × UserDoc) → UserId → UserDoc → List (UserId × UserDoc)
  | [], _, _ => []
  | (k, v) :: rest, id, u =>
    if k = id then (k, u) :: setById rest id u else (k, v) :: setById rest id u

/-- The write part of `User.findByIdAndDelete`: remove the document keyed
`id`. -/
def deleteById : List (UserId × UserDoc) → UserId → List (UserId × UserDoc)
  | [], _ => []
  | (k, v) :: rest, id =>
    if k = id then deleteById rest id else (k, v) :: deleteById rest id

/-- A JSON/file HTTP response as produced by the handlers: a user document,
a list of user documents, a message object, or a file streamed from a path
(given as normalized absolute-path segments). -/
inductive HandlerResponse where
  | userJson (status : Nat) (u : UserDoc)
  | usersJson (status : Nat) (us : List UserDoc)
  | message (status : Nat) (msg : String)
  | fileAt (status : Nat) (p : List String)
deriving Repr, DecidableEq

/-- The HTTP status code of a response. -/
def HandlerResponse.status : HandlerResponse → Nat
  | .userJson s _ => s
  | .usersJson s _ => s
  | .message s _ => s
  | .fileAt s _ => s

/-- The server's own base address prepended by `GET /users`
(index.js line 96). -/
def baseUrl : String := "http://localhost:8080"

/-- The per-document rewrite in `GET /users` (index.js lines 93-99):
`if (user.image) user.image = 'http://localhost:8080' + user.image`.
JS truthiness: `null` and the empty string are falsy, so only a present,
non-empty image field is rewritten. -/
def shapeUser (u : UserDoc) : UserDoc :=
  match u.image with
  | some s => if s = "" then u else { u with image := some (baseUrl ++ s) }
  | none => u

/-- `GET /users` (index.js lines 87-105): `User.find()` then the image-URL
rewrite on the returned representations; nothing is saved back, so the
state is returned unchanged. -/
def getUsersRoute (st : ServerState) : ServerState × HandlerResponse :=
  (st, .usersJson 200 ((st.users.map Prod.snd).map shapeUser))

/-- `GET /users/:id` (index.js lines 109-117): 404 if `findById` yields
nothing, else 200 with the document. -/
def getUserByIdRoute (st : ServerState) (id : UserId) : HandlerResponse :=
  match findById st.users id with
  | none => .message 404 "User not found"
  | some u => .userJson 200 u

/-- `POST /addUser` (index.js lines 73-84): Multer runs first; a filter
rejection surfaces through the Express default error handler as a 500 with
the error's message and the handler never runs.  Otherwise the handler
builds `image = req.file ? '/uploads/' + filename : null` and saves a new
document; a missing required text field makes `save()` throw a Mongoose
validation error, caught as a 500.  `newId` is the fresh `_id` Mongo
assigns. -/
def addUserRoute (st : ServerState) (now : Nat) (body : RequestBody)
    (file : Option UploadedFile) (newId : UserId) :
    ServerState × HandlerResponse :=
  match runMulter st now file with
  | (st1, .error msg) => (st1, .message 500 msg)
  | (st1, .ok stored) =>
    match body.username, body.email, body.password with
    | some un, some em, some pw =>
      let image := stored.map (fun n => "/uploads/" ++ n)
      let u : UserDoc := { username := un, email := em, password := pw, image := image }
      ({ st1 with users := st1.users ++ [(newId, u)] }, .userJson 201 u)
    | _, _, _ => (st1, .message 500 "User validation failed")

/-- The update document of `PUT /users/:id` (index.js line 127):
`{ username, email, password, ...(image && { image }) }`.  The `image` key
is present only when a new file was uploaded (the generated relative path
is a non-empty string, hence truthy).

Modelled from the spec: the repository's dependency manifest is not under
`src/`, so Mongoose's treatment of `undefined` update values is taken from
the spec ("absent fields yield undefined entries that are dropped from the
update patch"): `findByIdAndUpdate` strips keys whose value is `undefined`,
leaving the stored field untouched. -/
def applyPatch (u : UserDoc) (body : RequestBody) (image : Option String) : UserDoc :=
  { username := body.username.getD u.username
    email := body.email.getD u.email
    password := body.password.getD u.password
    image := match image with
             | some i => some i
             | none => u.image }

/-- `PUT /users/:id` (index.js lines 120-136): Multer first (rejection is a
500 as in `addUserRoute`); then `findByIdAndUpdate` with the patch and
`{ new: true }`, returning the post-update document, or 404 when no
document has that id. -/
def putUserRoute (st : ServerState) (now : Nat) (id : UserId)
    (body : RequestBody) (file : Option UploadedFile) :
    ServerState × HandlerResponse :=
  match runMulter st now file with
  | (st1, .error msg) => (st1, .message 500 msg)
  | (st1, .ok stored) =>
    let image := stored.map (fun n => "/uploads/" ++ n)
    match findById st1.users id with
    | none => (st1, .message 404 "User not found")
    | some u =>
      let u2 := applyPatch u body image
      ({ st1 with users := setById st1.users id u2 }, .userJson 200 u2)

/-- `DELETE /users/:id` (index.js lines 139-147): `findByIdAndDelete`; 404
when nothing matched, else 200 with the success message.  Only the record
is removed; the files on disk are not touched. -/
def deleteUserRoute (st : ServerState) (id : UserId) :
    ServerState × HandlerResponse :=
  match findById st.users id with
  | none => (st, .message 404 "User not found")
  | some _ =>
    ({ st with users := deleteById st.users id },
     .message 200 "User deleted successfully")

/-- Node `path.posix.basename`: drop trailing separators, then take the
final separator-free component (empty when the path is empty or all
separators). -/
def posixBasename (p : String) : String :=
  ⟨(((p.data.reverse).dropWhile (fun c => c = '/')).takeWhile (fun c => c ≠ '/')).reverse⟩

/-- One step of Node path normalization over segments of an absolute path:
empty and `.` segments vanish, `..` removes the previous segment (at the
root it is dropped), anything else is appended. -/
def normalizeStep (acc : List String) (s : String) : List String :=
  if s = "" ∨ s = "." then acc
  else if s = ".." then acc.dropLast
  else acc ++ [s]

/-- Node path normalization of an absolute path, on its `/`-split
segments. -/
def normalizeAbsSegs (segs : List String) : List String :=
  segs.foldl normalizeStep []

/-- Split a character list at every `/` (the behavior of splitting a path
string on the separator; the empty string splits to one empty segment). -/
def splitOnSlash : List Char → List (List Char)
  | [] => [[]]
  | c :: rest =>
    if c = '/' then [] :: splitOnSlash rest
    else
      match splitOnSlash rest with
      | [] => [[c]]
      | s :: ss => (c :: s) :: ss

/-- The `/`-separated segments of a path string. -/
def splitSegs (p : String) : List String :=
  (splitOnSlash p.data).map (fun l => ⟨l⟩)

/-- `path.join` on an absolute first part: concatenate the parts'
`/`-split segments and normalize; the result is the segment list of the
produced absolute path. -/
def pathJoin (parts : List String) : List String :=
  normalizeAbsSegs ((parts.map splitSegs).flatten)

/-- The upload directory `path.join(__dirname, 'uploads')`
(index.js line 15), as absolute-path segments; `dirname` is the server's
`__dirname`. -/
def uploadDirSegs (dirname : String) : List String :=
  pathJoin [dirname, "uploads"]

/-- The path served by `GET /userImage/:id` (index.js line 161):
`path.join(__dirname, 'uploads', path.basename(user.image))`. -/
def imagePathSegs (dirname : String) (image : String) : List String :=
  pathJoin [dirname, "uploads", posixBasename image]

/-- `GET /userImage/:id` (index.js lines 150-174): 404 when the user does
not exist or `user.image` is falsy (absent, null or empty); otherwise
`res.sendFile` streams the file at the joined path (200 on success; the
disk-error callback is outside this embedding). -/
def userImageRoute (dirname : String) (st : ServerState) (id : UserId) :
    HandlerResponse :=
  match findById st.users id with
  | none => .message 404 "User not found or image not available"
  | some u =>
    match u.image with
    | none => .message 404 "User not found or image not available"
    | some s =>
      if s = "" then .message 404 "User not found or image not available"
      else .fileAt 200 (imagePathSegs dirname s)

/-! ### Helper lemmas about the store operations -/

theorem findById_append_fresh (l : List (UserId × UserDoc)) (k : UserId)
    (u : UserDoc) (h : findById l k = none) :
    findById (l ++ [(k, u)]) k = some u := by
  induction l with
  | nil => simp [findById]
  | cons p rest ih =>
    obtain ⟨k2, v⟩ := p
    by_cases hk : k2 = k
    · simp [findById, hk] at h
    · simp only [findById, List.cons_append, if_neg hk] at h ⊢
      exact ih h

theorem findById_setById (l : List (UserId × UserDoc)) (k : UserId)
    (u v : UserDoc) (h : findById l k = some v) :
    findById (setById l k u) k = some u := by
  induction l with
  | nil => simp [findById] at h
  | cons p rest ih =>
    obtain ⟨k2, w⟩ := p
    by_cases hk : k2 = k
    · simp [findById, setById, hk]
    · simp only [findById, setById, if_neg hk] at h ⊢
      exact ih h

theorem findById_deleteById (l : List (UserId × UserDoc)) (k : UserId) :
    findById (deleteById l k) k = none := by
  induction l with
  | nil => simp [findById, deleteById]
  | cons p rest ih =>
    obtain ⟨k2, w⟩ := p
    by_cases hk : k2 = k
    · simpa [deleteById, hk] using ih
    · simpa [deleteById, findById, if_neg hk] using ih

theorem findById_deleteById_ne (l : List (UserId × UserDoc)) (k j : UserId)
    (h : j ≠ k) : findById (deleteById l k) j = findById l j := by
  induction l with
  | nil => simp [deleteById]
  | cons p rest ih =>
    obtain ⟨k2, w⟩ := p
    by_cases hk : k2 = k
    · have hne : ¬ k2 = j := fun hkj => h (hkj.symm.trans hk)
      simp only [deleteById, if_pos hk, findById, if_neg hne]
      exact ih
    · by_cases hj : k2 = j
      · simp only [deleteById, if_neg hk, findById, if_pos hj]
      · simp only [deleteById, if_neg hk, findById, if_neg hj]
        exact ih

/-! ### Helper lemmas about path handling -/

theorem mem_takeWhile_pred {p : Char → Bool} :
    ∀ {l : List Char} {c : Char}, c ∈ l.takeWhile p → p c = true := by
  intro l
  induction l with
  | nil => intro c hc; simp [List.takeWhile] at hc
  | cons a rest ih =>
    intro c hc
    by_cases ha : p a
    · rw [List.takeWhile_cons_of_pos ha] at hc
      rcases List.mem_cons.mp hc with h | h
      · exact h ▸ ha
      · exact ih h
    · rw [List.takeWhile_cons_of_neg ha] at hc
      simp at hc

theorem posixBasename_no_slash (s : String) :
    ∀ c ∈ (posixBasename s).data, c ≠ '/' := by
  intro c hc
  have hmem : c ∈ (((s.data.reverse).dropWhile (fun c => c = '/')).takeWhile
      (fun c => c ≠ '/')) := by
    simpa [posixBasename] using hc
  have := mem_takeWhile_pred hmem
  simpa using this

theorem splitOnSlash_no_slash (l : List Char) (h : ∀ c ∈ l, c ≠ '/') :
    splitOnSlash l = [l] := by
  induction l with
  | nil => rfl
  | cons c rest ih =>
    have hc : c ≠ '/' := h c (List.mem_cons_self c rest)
    have hrest : ∀ a ∈ rest, a ≠ '/' := fun a ha => h a (List.mem_cons_of_mem c ha)
    simp only [splitOnSlash, if_neg hc, ih hrest]

theorem splitSegs_single (s : String) (h : ∀ c ∈ s.data, c ≠ '/') :
    splitSegs s = [s] := by
  simp [splitSegs, splitOnSlash_no_slash s.data h]

theorem normalizeAbsSegs_append_one (xs : List String) (s : String) :
    normalizeAbsSegs (xs ++ [s]) = normalizeStep (normalizeAbsSegs xs) s := by
  simp [normalizeAbsSegs, List.foldl_append]

theorem normalizeStep_push (acc : List String) (s : String)
    (h0 : s ≠ "") (h1 : s ≠ ".") (h2 : s ≠ "..") :
    normalizeStep acc s = acc ++ [s] := by
  simp [normalizeStep, h0, h1, h2]

theorem uploadDirSegs_eq (dirname : String) :
    uploadDirSegs dirname =
      normalizeAbsSegs (splitSegs dirname) ++ ["uploads"] := by
  have h1 : pathJoin [dirname, "uploads"] =
      normalizeAbsSegs (splitSegs dirname ++ ["uploads"]) := by
    simp [pathJoin, splitSegs_single "uploads" (by decide)]
  rw [uploadDirSegs, h1, normalizeAbsSegs_append_one,
    normalizeStep_push _ _ (by decide) (by decide) (by decide)]

theorem imagePathSegs_eq (dirname : String) (image : String)
    (h0 : posixBasename image ≠ "") (h1 : posixBasename image ≠ ".")
    (h2 : posixBasename image ≠ "..") :
    imagePathSegs dirname image = uploadDirSegs dirname ++ [posixBasename image] := by
  have hb : splitSegs (posixBasename image) = [posixBasename image] :=
    splitSegs_single _ (posixBasename_no_slash image)
  have hflat : (([dirname, "uploads", posixBasename image].map splitSegs)).flatten =
      (splitSegs dirname ++ ["uploads"]) ++ [posixBasename image] := by
    simp [hb, splitSegs_single "uploads" (by decide)]
  rw [imagePathSegs, pathJoin, hflat, normalizeAbsSegs_append_one,
    normalizeStep_push _ _ h0 h1 h2, uploadDirSegs_eq,
    normalizeAbsSegs_append_one, normalizeStep_push _ _ (by decide) (by decide) (by decide)]

/-! ### Claim theorems -/

/-- Claim C4: the filename sanitizer replaces every occurrence of the
characters `< > : " / \ | ? *` with `_`: the output has the same length as
the input, contains none of those characters, and at every position equals
the input character unless that character is disallowed, in which case it
is `_`; as a Lean function it is pure and total by construction. -/
theorem sanitizeFilename_spec (s : String) :
    (sanitizeFilename s).length = s.length ∧
    (∀ c ∈ (sanitizeFilename s).data, isInvalidChar c = false) ∧
    (∀ i : Nat, (sanitizeFilename s).data[i]? =
      (s.data[i]?).map (fun c => if isInvalidChar c then '_' else c)) := by
  refine ⟨?_, ?_, ?_⟩
  · exact List.length_map s.data (fun c => if isInvalidChar c then '_' else c)
  · intro c hc
    simp only [sanitizeFilename, List.mem_map] at hc
    obtain ⟨a, _, ha⟩ := hc
    by_cases hb : isInvalidChar a = true
    · rw [if_pos hb] at ha
      rw [← ha]
      decide
    · have hb2 : isInvalidChar a = false := by
        cases h2 : isInvalidChar a
        · rfl
        · exact absurd h2 hb
      rw [if_neg hb] at ha
      rw [← ha]
      exact hb2
  · intro i
    simp [sanitizeFilename, List.getElem?_map]

/-- Witness for `sanitizeFilename_spec` at the concrete input `"a<b*"`. -/
theorem sanitizeFilename_spec_witness :
    isInvalidChar ((sanitizeFilename "a<b*").data.getD 1 'x') = false :=
  (sanitizeFilename_spec "a<b*").2.1 _ (by decide)

/-- Claim C8: an accepted upload is stored in the fixed uploads directory
under the name `<millisecond timestamp>-<sanitized original filename>`, and
the startup check leaves the uploads directory existing. -/
theorem upload_naming_spec (st : ServerState) (now : Nat) (f : UploadedFile)
    (hf : fileFilterAccepts f = true) :
    runMulter st now (some f) =
      ({ st with files :=
          st.files ++ [toString now ++ "-" ++ sanitizeFilename f.originalname] },
        .ok (some (toString now ++ "-" ++ sanitizeFilename f.originalname))) ∧
    storageDestination f = "uploads" ∧
    ∀ st2 : ServerState, (ensureUploadDir st2).uploadDirExists = true := by
  refine ⟨?_, rfl, ?_⟩
  · simp [runMulter, hf, storageFilename]
  · intro st2
    by_cases h : st2.uploadDirExists <;> simp [ensureUploadDir, h]

/-- Witness for `upload_naming_spec` at a concrete PNG upload. -/
theorem upload_naming_spec_witness :
    (ensureUploadDir ⟨[], [], false⟩).uploadDirExists = true :=
  (upload_naming_spec ⟨[], [], true⟩ 7 ⟨"p.png", "image/png"⟩ (by decide)).2.2
    ⟨[], [], false⟩

/-- Claim C9: creating a user with the three text fields and no image file,
then fetching by the assigned fresh id, yields a record whose image field
is absent (`null`). -/
theorem create_get_roundtrip (st : ServerState) (now : Nat)
    (un em pw : String) (newId : UserId)
    (hfresh : findById st.users newId = none) :
    (addUserRoute st now ⟨some un, some em, some pw⟩ none newId).2 =
      .userJson 201 ⟨un, em, pw, none⟩ ∧
    getUserByIdRoute (addUserRoute st now ⟨some un, some em, some pw⟩ none newId).1
        newId = .userJson 200 ⟨un, em, pw, none⟩ := by
  have hstate : addUserRoute st now ⟨some un, some em, some pw⟩ none newId =
      ({ st with users := st.users ++ [(newId, ⟨un, em, pw, none⟩)] },
        .userJson 201 ⟨un, em, pw, none⟩) := by
    simp [addUserRoute, runMulter]
  refine ⟨by rw [hstate], ?_⟩
  rw [hstate]
  simp [getUserByIdRoute, findById_append_fresh _ _ _ hfresh]

/-- Witness for `create_get_roundtrip` on an empty store. -/
theorem create_get_roundtrip_witness :
    (addUserRoute ⟨[], [], true⟩ 3 ⟨some "alice", some "a@x.com", some "p"⟩
        none 1).2 = .userJson 201 ⟨"alice", "a@x.com", "p", none⟩ :=
  (create_get_roundtrip ⟨[], [], true⟩ 3 "alice" "a@x.com" "p" 1 rfl).1

/-- Claim C5: when delete-by-id succeeds (status 200), a subsequent
get-by-id on the same id answers 404; the delete touches neither the
uploaded files nor any other record. -/
theorem delete_then_get (st : ServerState) (id : UserId)
    (h : ((deleteUserRoute st id).2).status = 200) :
    getUserByIdRoute (deleteUserRoute st id).1 id = .message 404 "User not found" ∧
    (deleteUserRoute st id).1.files = st.files ∧
    (deleteUserRoute st id).1.uploadDirExists = st.uploadDirExists ∧
    ∀ j, j ≠ id → findById (deleteUserRoute st id).1.users j = findById st.users j := by
  cases hu : findById st.users id with
  | none =>
    exfalso
    simp [deleteUserRoute, hu, HandlerResponse.status] at h
  | some u =>
    have hd : deleteUserRoute st id =
        ({ st with users := deleteById st.users id },
          .message 200 "User deleted successfully") := by
      simp [deleteUserRoute, hu]
    rw [hd]
    refine ⟨?_, rfl, rfl, ?_⟩
    · simp [getUserByIdRoute, findById_deleteById]
    · intro j hj
      exact findById_deleteById_ne st.users id j hj

/-- Witness for `delete_then_get` on a one-user store. -/
theorem delete_then_get_witness :
    getUserByIdRoute
        (deleteUserRoute ⟨[(2, ⟨"a", "e", "p", none⟩)], ["f.png"], true⟩ 2).1 2 =
      .message 404 "User not found" :=
  (delete_then_get ⟨[(2, ⟨"a", "e", "p", none⟩)], ["f.png"], true⟩ 2 rfl).1

/-- Claim C6: list-all leaves the stored collection unchanged and returns
representations in which every present, non-empty image field is the stored
relative path prefixed with the server's base address. -/
theorem getUsers_shaping (st : ServerState) :
    (getUsersRoute st).1 = st ∧
    (getUsersRoute st).2 = .usersJson 200 ((st.users.map Prod.snd).map shapeUser) ∧
    ∀ u : UserDoc, ∀ s : String, u.image = some s → s ≠ "" →
      (shapeUser u).image = some (baseUrl ++ s) := by
  refine ⟨rfl, rfl, ?_⟩
  intro u s hu hs
  simp [shapeUser, hu, hs]

/-- Witness for `getUsers_shaping` at a concrete record with an image. -/
theorem getUsers_shaping_witness :
    (shapeUser ⟨"a", "e", "p", some "/uploads/1-x.png"⟩).image =
      some (baseUrl ++ "/uploads/1-x.png") :=
  (getUsers_shaping ⟨[], [], true⟩).2.2 ⟨"a", "e", "p", some "/uploads/1-x.png"⟩
    "/uploads/1-x.png" rfl (by decide)

/-- Claim C1: update-by-id retains the stored image when no new file is
supplied, overwrites it with the new relative path when an accepted file is
supplied, returns the post-update record, and answers not-found when no
record has that id. -/
theorem putUser_image_spec (st : ServerState) (now : Nat) (id : UserId)
    (body : RequestBody) :
    (∀ u, findById st.users id = some u →
      ((putUserRoute st now id body none).2 =
          .userJson 200 (applyPatch u body none) ∧
        (applyPatch u body none).image = u.image ∧
        findById (putUserRoute st now id body none).1.users id =
          some (applyPatch u body none)) ∧
      (∀ f, fileFilterAccepts f = true →
        ∃ u2, (putUserRoute st now id body (some f)).2 = .userJson 200 u2 ∧
          u2.image = some ("/uploads/" ++ storageFilename now f) ∧
          findById (putUserRoute st now id body (some f)).1.users id = some u2)) ∧
    (findById st.users id = none →
      ∀ file, Option.all fileFilterAccepts file = true →
        (putUserRoute st now id body file).2 = .message 404 "User not found") := by
  constructor
  · intro u hu
    constructor
    · have hput : putUserRoute st now id body none =
          ({ st with users := setById st.users id (applyPatch u body none) },
            .userJson 200 (applyPatch u body none)) := by
        simp [putUserRoute, runMulter, hu]
      refine ⟨by rw [hput], by simp [applyPatch], ?_⟩
      rw [hput]
      exact findById_setById st.users id _ u hu
    · intro f hff
      have hput : putUserRoute st now id body (some f) =
          ({ st with
              files := st.files ++ [storageFilename now f]
              users := setById st.users id
                (applyPatch u body (some ("/uploads/" ++ storageFilename now f))) },
            .userJson 200
              (applyPatch u body (some ("/uploads/" ++ storageFilename now f)))) := by
        simp [putUserRoute, runMulter, hff, hu]
      refine ⟨applyPatch u body (some ("/uploads/" ++ storageFilename now f)),
        by rw [hput], by simp [applyPatch], ?_⟩
      rw [hput]
      exact findById_setById st.users id _ u hu
  · intro h0 file hall
    cases file with
    | none => simp [putUserRoute, runMulter, h0]
    | some f =>
      have hff : fileFilterAccepts f = true := by simpa [Option.all] using hall
      simp [putUserRoute, runMulter, hff, h0]

/-- Witness for `putUser_image_spec`: updating `username` only leaves the
stored image reference unchanged. -/
theorem putUser_image_spec_witness :
    (applyPatch ⟨"alice", "a@x.com", "p", some "/uploads/1-a.png"⟩
        ⟨some "bob", none, none⟩ none).image = some "/uploads/1-a.png" :=
  ((putUser_image_spec
      ⟨[(1, ⟨"alice", "a@x.com", "p", some "/uploads/1-a.png"⟩)], [], true⟩ 5 1
      ⟨some "bob", none, none⟩).1
    ⟨"alice", "a@x.com", "p", some "/uploads/1-a.png"⟩ rfl).1.2.1

/-- Claim C10: a text field absent from the update body yields an
`undefined` entry that is dropped from the patch, so after a successful
update the stored value of that field is unchanged. -/
theorem putUser_absent_fields_spec (st : ServerState) (now : Nat) (id : UserId)
    (body : RequestBody) (file : Option UploadedFile) (u : UserDoc)
    (hu : findById st.users id = some u)
    (hf : Option.all fileFilterAccepts file = true) :
    ∃ u2, (putUserRoute st now id body file).2 = .userJson 200 u2 ∧
      findById (putUserRoute st now id body file).1.users id = some u2 ∧
      (body.username = none → u2.username = u.username) ∧
      (body.email = none → u2.email = u.email) ∧
      (body.password = none → u2.password = u.password) := by
  cases file with
  | none =>
    have hput : putUserRoute st now id body none =
        ({ st with users := setById st.users id (applyPatch u body none) },
          .userJson 200 (applyPatch u body none)) := by
      simp [putUserRoute, runMulter, hu]
    refine ⟨applyPatch u body none, by rw [hput], ?_, ?_, ?_, ?_⟩
    · rw [hput]
      exact findById_setById st.users id _ u hu
    · intro h; simp [applyPatch, h]
    · intro h; simp [applyPatch, h]
    · intro h; simp [applyPatch, h]
  | some f =>
    have hff : fileFilterAccepts f = true := by simpa [Option.all] using hf
    have hput : putUserRoute st now id body (some f) =
        ({ st with
            files := st.files ++ [storageFilename now f]
            users := setById st.users id
              (applyPatch u body (some ("/uploads/" ++ storageFilename now f))) },
          .userJson 200
            (applyPatch u body (some ("/uploads/" ++ storageFilename now f)))) := by
      simp [putUserRoute, runMulter, hff, hu]
    refine ⟨applyPatch u body (some ("/uploads/" ++ storageFilename now f)),
      by rw [hput], ?_, ?_, ?_, ?_⟩
    · rw [hput]
      exact findById_setById st.users id _ u hu
    · intro h; simp [applyPatch, h]
    · intro h; simp [applyPatch, h]
    · intro h; simp [applyPatch, h]

/-- Witness for `putUser_absent_fields_spec` with an absent email field. -/
theorem putUser_absent_fields_witness :
    ((putUserRoute ⟨[(1, ⟨"alice", "a@x.com", "p", none⟩)], [], true⟩ 5 1
        ⟨some "bob", none, none⟩ none).2).status = 200 := by
  obtain ⟨u2, h1, -, -, -, -⟩ :=
    putUser_absent_fields_spec ⟨[(1, ⟨"alice", "a@x.com", "p", none⟩)], [], true⟩
      5 1 ⟨some "bob", none, none⟩ none ⟨"alice", "a@x.com", "p", none⟩ rfl rfl
  rw [h1]
  rfl

/-- Claim C2: when any supplied upload passes the image filter, every
id-scoped route answers 404 — hence not 500 — on a well-formed id matching
no record; create success answers 201, and read/update/delete success
answer 200. -/
theorem statusCodes_spec (dirname : String) (st : ServerState) (now : Nat)
    (body : RequestBody) (file : Option UploadedFile) (id newId : UserId)
    (hf : Option.all fileFilterAccepts file = true) :
    (findById st.users id = none →
      (getUserByIdRoute st id).status = 404 ∧
      ((putUserRoute st now id body file).2).status = 404 ∧
      ((deleteUserRoute st id).2).status = 404 ∧
      (userImageRoute dirname st id).status = 404 ∧
      (getUserByIdRoute st id).status ≠ 500 ∧
      ((putUserRoute st now id body file).2).status ≠ 500 ∧
      ((deleteUserRoute st id).2).status ≠ 500 ∧
      (userImageRoute dirname st id).status ≠ 500) ∧
    (∀ un em pw, body = ⟨some un, some em, some pw⟩ →
      ((addUserRoute st now body file newId).2).status = 201) ∧
    (∀ u, findById st.users id = some u →
      (getUserByIdRoute st id).status = 200 ∧
      ((putUserRoute st now id body file).2).status = 200 ∧
      ((deleteUserRoute st id).2).status = 200) := by
  obtain ⟨st1, stored, hm, hus⟩ :
      ∃ st1 stored, runMulter st now file = (st1, .ok stored) ∧ st1.users = st.users := by
    cases file with
    | none => exact ⟨st, none, rfl, rfl⟩
    | some f =>
      have hff : fileFilterAccepts f = true := by simpa [Option.all] using hf
      exact ⟨{ st with files := st.files ++ [storageFilename now f] },
        some (storageFilename now f), by simp [runMulter, hff], rfl⟩
  refine ⟨?_, ?_, ?_⟩
  · intro h0
    have hg : (getUserByIdRoute st id).status = 404 := by
      simp [getUserByIdRoute, h0, HandlerResponse.status]
    have hp : ((putUserRoute st now id body file).2).status = 404 := by
      simp [putUserRoute, hm, hus, h0, HandlerResponse.status]
    have hd : ((deleteUserRoute st id).2).status = 404 := by
      simp [deleteUserRoute, h0, HandlerResponse.status]
    have hi : (userImageRoute dirname st id).status = 404 := by
      simp [userImageRoute, h0, HandlerResponse.status]
    exact ⟨hg, hp, hd, hi, by rw [hg]; decide, by rw [hp]; decide,
      by rw [hd]; decide, by rw [hi]; decide⟩
  · intro un em pw hbody
    subst hbody
    simp [addUserRoute, hm, HandlerResponse.status]
  · intro u hu
    refine ⟨?_, ?_, ?_⟩
    · simp [getUserByIdRoute, hu, HandlerResponse.status]
    · simp [putUserRoute, hm, hus, hu, HandlerResponse.status]
    · simp [deleteUserRoute, hu, HandlerResponse.status]

/-- Witness for `statusCodes_spec`: id 9 on an empty store answers 404. -/
theorem statusCodes_spec_witness :
    (getUserByIdRoute ⟨[], [], true⟩ 9).status = 404 :=
  ((statusCodes_spec "/app/backend" ⟨[], [], true⟩ 1 ⟨none, none, none⟩
      none 9 3 rfl).1 rfl).1

/-- Claim C3: an upload whose declared MIME type does not start with
`image/` is rejected before storage: no file is written, no user record is
created, and the response is the surfaced rejection error, never a
created-user response. -/
theorem addUser_rejects_non_image (st : ServerState) (now : Nat)
    (body : RequestBody) (f : UploadedFile) (newId : UserId)
    (hf : fileFilterAccepts f = false) :
    addUserRoute st now body (some f) newId =
      (st, .message 500 "Only image files are allowed") ∧
    (addUserRoute st now body (some f) newId).1.files = st.files ∧
    (addUserRoute st now body (some f) newId).1.users = st.users ∧
    ∀ code u, (addUserRoute st now body (some f) newId).2 ≠ .userJson code u := by
  have h : addUserRoute st now body (some f) newId =
      (st, .message 500 "Only image files are allowed") := by
    simp [addUserRoute, runMulter, hf]
  refine ⟨h, by rw [h], by rw [h], ?_⟩
  intro code u
  rw [h]
  simp

/-- Witness for `addUser_rejects_non_image` on a `text/plain` upload. -/
theorem addUser_rejects_non_image_witness :
    addUserRoute ⟨[], [], true⟩ 4 ⟨some "alice", some "a@x.com", some "p"⟩
        (some ⟨"notes.txt", "text/plain"⟩) 1 =
      (⟨[], [], true⟩, .message 500 "Only image files are allowed") :=
  (addUser_rejects_non_image ⟨[], [], true⟩ 4
      ⟨some "alice", some "a@x.com", some "p"⟩ ⟨"notes.txt", "text/plain"⟩ 1
      (by decide)).1

/-- Claim C7 as stated is false: with stored image value `".."` the route
serves the parent of the upload directory, which is not inside it
(`path.basename('..') = '..'`, and `path.join` then climbs out). -/
theorem userImage_escape_counterexample :
    userImageRoute "/app/backend"
        ⟨[(1, ⟨"alice", "a@x.com", "p", some ".."⟩)], [], true⟩ 1 =
      .fileAt 200 ["app", "backend"] ∧
    ¬ ∃ rest, rest ≠ [] ∧
        ["app", "backend"] = uploadDirSegs "/app/backend" ++ rest := by
  constructor
  · rfl
  · rintro ⟨rest, hne, h⟩
    have hup : uploadDirSegs "/app/backend" = ["app", "backend", "uploads"] := rfl
    rw [hup] at h
    simp at h

/-- Claim C7 (amended): the route answers 404 when the user does not exist
or has no (or an empty) image; the basename of the stored image contains no
separator, and whenever that basename is not empty and not a dot-segment
(`.` or `..`) the served path is the upload directory extended by exactly
that basename, hence strictly inside the upload directory.  A stored value
whose basename is a dot-segment — never produced by the upload store —
escapes to the upload directory itself or its parent. -/
theorem userImage_spec_amended (dirname : String) (st : ServerState)
    (id : UserId) :
    (findById st.users id = none →
      userImageRoute dirname st id =
        .message 404 "User not found or image not available") ∧
    (∀ u, findById st.users id = some u → (u.image = none ∨ u.image = some "") →
      userImageRoute dirname st id =
        .message 404 "User not found or image not available") ∧
    (∀ u s, findById st.users id = some u → u.image = some s → s ≠ "" →
      (∀ c ∈ (posixBasename s).data, c ≠ '/') ∧
      (posixBasename s ≠ "" → posixBasename s ≠ "." → posixBasename s ≠ ".." →
        userImageRoute dirname st id =
          .fileAt 200 (uploadDirSegs dirname ++ [posixBasename s]))) := by
  refine ⟨?_, ?_, ?_⟩
  · intro h0
    simp [userImageRoute, h0]
  · intro u hu him
    rcases him with him | him <;> simp [userImageRoute, hu, him]
  · intro u s hu him hs
    refine ⟨posixBasename_no_slash s, ?_⟩
    intro h0 h1 h2
    simp [userImageRoute, hu, him, hs, imagePathSegs_eq dirname s h0 h1 h2]

/-- Witness for `userImage_spec_amended` on a genuine stored upload path. -/
theorem userImage_spec_amended_witness :
    userImageRoute "/srv/app"
        ⟨[(1, ⟨"a", "e", "p", some "/uploads/7-x.png"⟩)], [], true⟩ 1 =
      .fileAt 200 (uploadDirSegs "/srv/app" ++ [posixBasename "/uploads/7-x.png"]) :=
  ((userImage_spec_amended "/srv/app"
      ⟨[(1, ⟨"a", "e", "p", some "/uploads/7-x.png"⟩)], [], true⟩ 1).2.2
    ⟨"a", "e", "p", some "/uploads/7-x.png"⟩ "/uploads/7-x.png" rfl rfl
    (by decide)).2 (by decide) (by decide) (by decide)

end MongoApp
